import Mathlib

/-!
Verification development for the `voice-satellite-card-llm-tools` integration.

The Python sources under `custom_components/voice_satellite_llm_tools/` (and
the image-search variant under `custom_components/ha_llm_extensions/`) are
shallowly embedded below.  Conventions used throughout:

* Python `dict` payloads whose keys are always produced by this code base are
  modelled as Lean structures; `d.get(k, default)` on keys that may be absent
  is modelled with `Option` fields and `Option.getD`.
* `time.time()` timestamps and TTLs are modelled as `Int` seconds.
* The in-memory cache `hass.data[DOMAIN]["cache"]` is a Python dict keyed by
  the MD5 hex digest of a canonical JSON dump.  Equal dumps give equal
  digests, so a cache key is modelled by the canonical payload itself
  (normalized query plus result count); the `"type"` tag that the web and
  video tools add to the dump partitions the shared dict's key space, which
  is modelled by giving each tool kind its own store.
* Upstream HTTP calls (`async_search_images`, `async_search_web`,
  `_search_videos`, Finnhub/CoinGecko requests) are modelled as oracle values
  passed to the embedded function: an `Except` value describes whether the
  awaited call raises or returns.
* Raised Python exceptions are modelled with `Except String`; a function
  returning `.error` models an exception propagating out of the modelled
  code region.
-/

namespace VoiceSatellite

/-! ## Python string primitives (ASCII fragment)

`str.lower` / `str.upper` are modelled on the ASCII alphabet via
`Char.toLower` / `Char.toUpper`; all query constants in the spec and the
tests are ASCII.  `str.strip()` with no argument removes leading and
trailing whitespace; the ASCII whitespace characters are modelled. -/

/-- Models membership of a character in Python's default `str.strip` set
(ASCII whitespace). -/
def pyIsSpace (c : Char) : Bool :=
  decide (c = ' ') || decide (c = '\t') || decide (c = '\n') ||
  decide (c = '\r') || decide (c = '\x0b') || decide (c = '\x0c')

/-- Models Python `str.lower` on a character list (ASCII fragment). -/
def pyLowerL (l : List Char) : List Char :=
  l.map Char.toLower

/-- Models Python `str.upper` on a character list (ASCII fragment). -/
def pyUpperL (l : List Char) : List Char :=
  l.map Char.toUpper

/-- Models Python `str.strip()` on a character list: drop leading and
trailing whitespace. -/
def pyStripL (l : List Char) : List Char :=
  (((l.dropWhile pyIsSpace).reverse).dropWhile pyIsSpace).reverse

/-- Models Python `str.lower` on strings (ASCII fragment). -/
def pyLower (s : String) : String :=
  ⟨pyLowerL s.data⟩

/-- Models Python `str.upper` on strings (ASCII fragment). -/
def pyUpper (s : String) : String :=
  ⟨pyUpperL s.data⟩

/-- Models Python `str.startswith(pre)`: prefix test on the character
list. -/
def pyStartsWith (s pre : String) : Bool :=
  pre.data.isPrefixOf s.data

/-- Models `query.lower().strip()`, the normalization applied by every
`_make_cache_key` before hashing. -/
def normalizeQuery (s : String) : String :=
  ⟨pyStripL (pyLowerL s.data)⟩

/-! ## The in-memory cache (`hass.data[DOMAIN]["cache"]`)

Entries are `{"ts": time.time(), "data": results}` dicts.  The store is a
Python dict; it is modelled as an association list whose keys are the
canonical cache-key payloads (see the module comment for why this is a
faithful model of the MD5-keyed dict). -/

/-- A cache key: the canonical payload hashed by `_make_cache_key` — the
normalized query string and the resolved result count. -/
abbrev CacheKey := String × Int

/-- Models the `{"ts": ..., "data": ...}` entry dict stored by `_cache_set`. -/
structure CacheEntry (α : Type) where
  ts : Int
  data : α
  deriving DecidableEq, Repr

/-- The cache store for one tool kind. -/
abbrev Cache (α : Type) := List (CacheKey × CacheEntry α)

/-- Dict lookup `cache.get(key)`. -/
def cacheLookup {α : Type} : Cache α → CacheKey → Option (CacheEntry α)
  | [], _ => none
  | (k1, e) :: rest, k => if k1 = k then some e else cacheLookup rest k

/-- Dict removal `cache.pop(key, None)`.  Dict keys are unique, so removing
every binding for the key models removing the single binding. -/
def cachePop {α : Type} (c : Cache α) (k : CacheKey) : Cache α :=
  c.filter (fun p => decide (p.1 ≠ k))

/-- Models `_cache_set`: `cache[key] = {"ts": time.time(), "data": data}`.
Dict assignment replaces any existing binding. -/
def cacheSet {α : Type} (c : Cache α) (k : CacheKey) (now : Int) (data : α) :
    Cache α :=
  (k, ⟨now, data⟩) :: cachePop c k

/-- Models `_cache_get`: look up the key; if present but
`time.time() - entry["ts"] > ttl`, evict the entry and report a miss;
otherwise return `entry["data"]`.  Returns the payload (if any) together
with the possibly mutated store. -/
def cacheGet {α : Type} (c : Cache α) (k : CacheKey) (ttl now : Int) :
    Option α × Cache α :=
  match cacheLookup c k with
  | none => (none, c)
  | some e => if now - e.ts > ttl then (none, cachePop c k) else (some e.data, c)

/-! ## Result-count resolution (`_get_num_results`)

`BaseImageSearchTool._get_num_results` and
`YouTubeVideoSearchTool._get_num_results` take `min(explicit, configured)`
when the caller supplies `num_results` and `configured` otherwise.
`BaseWebSearchTool._get_num_results` first clamps the configured value with
`min(configured, 6)`. -/

/-- Models `BaseImageSearchTool._get_num_results` as a function of the
configured maximum (`self._get_configured_num_results()`) and the optional
explicit argument (`tool_input.tool_args.get("num_results")`). -/
def imageGetNumResults (configured : Int) (explicit : Option Int) : Int :=
  match explicit with
  | some e => min e configured
  | none => configured

/-- Models `BaseWebSearchTool._get_num_results`: the configured maximum is
first clamped to 6. -/
def webGetNumResults (configured : Int) (explicit : Option Int) : Int :=
  let configuredMax := min configured 6
  match explicit with
  | some e => min e configuredMax
  | none => configuredMax

/-- Models `YouTubeVideoSearchTool._get_num_results` as a function of
`int(self.config.get(CONF_YOUTUBE_NUM_RESULTS, 3))` and the optional
explicit argument. -/
def videoGetNumResults (configured : Int) (explicit : Option Int) : Int :=
  match explicit with
  | some e => min e configured
  | none => configured

/-! ## Cache key builders (`_make_cache_key`)

Each builder MD5-hashes `json.dumps({..., "q": query.lower().strip(),
"n": num_results}, sort_keys=True)`.  MD5 maps equal dumps to equal
digests, and the canonical dump is determined by the normalized query and
the count (plus the constant per-tool `"type"` tag), so the key is modelled
by that payload. -/

/-- Models `BaseImageSearchTool._make_cache_key`: the MD5 digest of the
canonical dump of `{"q": query.lower().strip(), "n": num_results}`,
represented by the hashed payload. -/
def imageMakeCacheKey (query : String) (numResults : Int) : CacheKey :=
  (normalizeQuery query, numResults)

/-- Models `BaseWebSearchTool._make_cache_key`; the constant
`"type": "web"` tag keeps web keys apart from other tool kinds, which the
model realises by giving each tool kind its own store. -/
def webMakeCacheKey (query : String) (numResults : Int) : CacheKey :=
  (normalizeQuery query, numResults)

/-- Models `YouTubeVideoSearchTool._make_cache_key`; the constant
`"type": "video"` tag keeps video keys apart from other tool kinds. -/
def videoMakeCacheKey (query : String) (numResults : Int) : CacheKey :=
  (normalizeQuery query, numResults)

/-! ## Image search tool (`base_image_search.py`) -/

/-- An image result dict as built by every image provider adapter
(`async_search_images` in the SearXNG, Brave and Google subclasses); every
adapter sets all seven keys, with `width`/`height` possibly `None`. -/
structure ImageResult where
  image_url : String
  title : String
  thumbnail_url : String
  source_url : String
  source : String
  width : Option Int
  height : Option Int
  deriving DecidableEq, Repr

/-- The `tool_input.tool_args` mapping for the image tool: `query` is
required by the schema but the dict itself may lack it, `num_results` and
`auto_display` are optional. -/
structure ImageToolArgs where
  query : Option String
  num_results : Option Int
  auto_display : Option Bool
  deriving DecidableEq, Repr

/-- The constant `instruction` string of the image success response. -/
def imageInstructionText : String :=
  "Do NOT include image URLs or markdown image syntax in your response. " ++
  "The images will be displayed automatically by the UI. " ++
  "Simply tell the user what you found in plain text, e.g. " ++
  "'Here are some cat images I found from Unsplash and Google Images.'"

/-- The success-response dict built by
`BaseImageSearchTool._format_response`. -/
structure ImageFormatted where
  query : String
  num_results : Nat
  auto_display : Bool
  results : List ImageResult
  instruction : String
  deriving DecidableEq, Repr

/-- Models `BaseImageSearchTool._format_response`: wraps the payload,
rebuilding each result dict field by field (`r["image_url"]`, `r["title"]`,
and `r.get(...)` for the rest; adapter payloads always carry every key, so
the rebuild is the identity on each record). -/
def imageFormatResponse (results : List ImageResult) (query : String)
    (autoDisplay : Bool) : ImageFormatted :=
  { query := query
    num_results := results.length
    auto_display := autoDisplay
    results := results.map (fun r =>
      { image_url := r.image_url
        title := r.title
        thumbnail_url := r.thumbnail_url
        source_url := r.source_url
        source := r.source
        width := r.width
        height := r.height })
    instruction := imageInstructionText }

/-- The dict returned by `BaseImageSearchTool.async_call`: a formatted
success response, the zero-results response
`{"query", "results": [], "auto_display": False, "message"}`, or the
caught-exception response `{"error": ...}`. -/
inductive ImageOutcome where
  | formatted (resp : ImageFormatted)
  | empty (query : String) (auto_display : Bool) (message : String)
  | errored (msg : String)
  deriving DecidableEq, Repr

/-- The observable effect of one `BaseImageSearchTool.async_call` that
returned normally: the returned dict, the cache store afterwards, and
whether `async_search_images` was awaited. -/
structure ImageCallResult where
  outcome : ImageOutcome
  cache : Cache (List ImageResult)
  adapterCalled : Bool
  deriving DecidableEq, Repr

/-- Models `BaseImageSearchTool.async_call`.  The `adapter` oracle gives the
behavior of `await self.async_search_images(query, num_results)` (raise or
return).  `tool_args["query"]` and `self._get_num_results(tool_input)` are
evaluated before the `try` block, so a missing `"query"` key raises a
`KeyError` that propagates (modelled as `.error`); everything raised inside
the `try` block is caught and turned into the `{"error": ...}` dict. -/
def imageAsyncCall (args : ImageToolArgs) (configured ttl now : Int)
    (adapter : String → Int → Except String (List ImageResult))
    (cache : Cache (List ImageResult)) : Except String ImageCallResult :=
  match args.query with
  | none => .error "KeyError: query"
  | some query =>
    let numResults := imageGetNumResults configured args.num_results
    let autoDisplay := args.auto_display.getD false
    let key := imageMakeCacheKey query numResults
    match cacheGet cache key ttl now with
    | (some data, c1) =>
      .ok ⟨.formatted (imageFormatResponse data query autoDisplay), c1, false⟩
    | (none, c1) =>
      match adapter query numResults with
      | .error e => .ok ⟨.errored ("Image search failed: " ++ e), c1, true⟩
      | .ok results =>
        if results.isEmpty then
          .ok ⟨.empty query false "No images found for this query.", c1, true⟩
        else
          .ok ⟨.formatted (imageFormatResponse results query autoDisplay),
            cacheSet c1 key now results, true⟩

/-! ## Web search tool (`base_web_search.py`) -/

/-- A web result dict as built by the Brave and SearXNG
`async_search_web` adapters: all four keys are always set. -/
structure WebResult where
  url : String
  title : String
  snippet : String
  thumbnail_url : String
  deriving DecidableEq, Repr

/-- The `tool_input.tool_args` mapping for the web tool. -/
structure WebToolArgs where
  query : Option String
  num_results : Option Int
  deriving DecidableEq, Repr

/-- Models `urlparse(url).hostname or ""` for http(s)-style URLs: the
authority runs from the first `//` to the next `/`, `?` or `#`; the
hostname drops any userinfo before `@` and any `:port`, lowercased.  A URL
with no `//` has no netloc, hence hostname `""`. -/
def urlHostname (url : String) : String :=
  let rec afterSlashes : List Char → Option (List Char)
    | [] => none
    | '/' :: '/' :: rest => some rest
    | _ :: rest => afterSlashes rest
  match afterSlashes url.data with
  | none => ""
  | some rest =>
    let netloc := rest.takeWhile
      (fun c => !(decide (c = '/') || decide (c = '?') || decide (c = '#')))
    let hostPort :=
      if netloc.contains '@' then (netloc.reverse.takeWhile (· ≠ '@')).reverse
      else netloc
    ⟨pyLowerL (hostPort.takeWhile (fun c => !(decide (c = ':'))))⟩

/-- Models `BaseWebSearchTool._extract_site_name`: the hostname with a
leading `www.` removed. -/
def extractSiteName (url : String) : String :=
  let hostname := urlHostname url
  if pyStartsWith hostname "www." then ⟨hostname.data.drop 4⟩ else hostname

/-- Models `BaseWebSearchTool._extract_featured_image`: the first result
whose `thumbnail_url` is non-empty and starts with `http`. -/
def webExtractFeaturedImage (results : List WebResult) : Option String :=
  (results.find? (fun r =>
      !(decide (r.thumbnail_url = "")) &&
        pyStartsWith r.thumbnail_url "http")).map
    (fun r => r.thumbnail_url)

/-- One entry of the formatted web results list. -/
structure WebFormattedItem where
  url : String
  title : String
  snippet : String
  site_name : String
  deriving DecidableEq, Repr

/-- The constant `instruction` string of the web success response. -/
def webInstructionText : String :=
  "Summarize the key information from these search results in 2-3 concise sentences. " ++
  "Do NOT list individual URLs, titles, or sources. " ++
  "The user cannot see the raw results - synthesize the information into a helpful answer."

/-- The success-response dict built by `BaseWebSearchTool._format_response`. -/
structure WebFormatted where
  source : String
  query : String
  num_results : Nat
  results : List WebFormattedItem
  featured_image : Option String
  instruction : String
  deriving DecidableEq, Repr

/-- Models `BaseWebSearchTool._format_response`. -/
def webFormatResponse (source : String) (results : List WebResult)
    (query : String) : WebFormatted :=
  { source := source
    query := query
    num_results := results.length
    results := results.map (fun r =>
      { url := r.url
        title := r.title
        snippet := r.snippet
        site_name := extractSiteName r.url })
    featured_image := webExtractFeaturedImage results
    instruction := webInstructionText }

/-- The dict returned by `BaseWebSearchTool.async_call`. -/
inductive WebOutcome where
  | formatted (resp : WebFormatted)
  | empty (source query : String) (message : String)
  | errored (msg : String)
  deriving DecidableEq, Repr

/-- The observable effect of one `BaseWebSearchTool.async_call` that
returned normally. -/
structure WebCallResult where
  outcome : WebOutcome
  cache : Cache (List WebResult)
  adapterCalled : Bool
  deriving DecidableEq, Repr

/-- Models `BaseWebSearchTool.async_call`; structure as in
`imageAsyncCall`, without a display hint and with the tool's `source`
attribute in the responses. -/
def webAsyncCall (source : String) (args : WebToolArgs)
    (configured ttl now : Int)
    (adapter : String → Int → Except String (List WebResult))
    (cache : Cache (List WebResult)) : Except String WebCallResult :=
  match args.query with
  | none => .error "KeyError: query"
  | some query =>
    let numResults := webGetNumResults configured args.num_results
    let key := webMakeCacheKey query numResults
    match cacheGet cache key ttl now with
    | (some data, c1) =>
      .ok ⟨.formatted (webFormatResponse source data query), c1, false⟩
    | (none, c1) =>
      match adapter query numResults with
      | .error e => .ok ⟨.errored ("Web search failed: " ++ e), c1, true⟩
      | .ok results =>
        if results.isEmpty then
          .ok ⟨.empty source query "No results found for this query.", c1, true⟩
        else
          .ok ⟨.formatted (webFormatResponse source results query),
            cacheSet c1 key now results, true⟩

/-! ## Video search tool (`youtube_video_search.py`) -/

/-- A video result dict as built by `_search_videos`; all keys are always
set (missing upstream fields default to `""`). -/
structure VideoResult where
  video_url : String
  video_id : String
  title : String
  description : String
  thumbnail_url : String
  channel_name : String
  published_at : String
  duration : String
  view_count : String
  deriving DecidableEq, Repr

/-- The `tool_input.tool_args` mapping for the video tool. -/
structure VideoToolArgs where
  query : Option String
  num_results : Option Int
  auto_play : Option Bool
  deriving DecidableEq, Repr

/-- The constant `instruction` string of the video success response. -/
def videoInstructionText : String :=
  "Do NOT include video URLs in your response. " ++
  "The videos will be displayed automatically by the UI. " ++
  "Simply tell the user what you found in plain text, e.g. " ++
  "'Here are some cooking tutorial videos I found on YouTube.'"

/-- The success-response dict built by
`YouTubeVideoSearchTool._format_response`; the results list is passed
through unchanged. -/
structure VideoFormatted where
  source : String
  query : String
  num_results : Nat
  auto_play : Bool
  results : List VideoResult
  instruction : String
  deriving DecidableEq, Repr

/-- Models `YouTubeVideoSearchTool._format_response`. -/
def videoFormatResponse (results : List VideoResult) (query : String)
    (autoPlay : Bool) : VideoFormatted :=
  { source := "youtube"
    query := query
    num_results := results.length
    auto_play := autoPlay
    results := results
    instruction := videoInstructionText }

/-- The dict returned by `YouTubeVideoSearchTool.async_call`. -/
inductive VideoOutcome where
  | formatted (resp : VideoFormatted)
  | empty (source query : String) (auto_play : Bool) (message : String)
  | errored (msg : String)
  deriving DecidableEq, Repr

/-- The observable effect of one `YouTubeVideoSearchTool.async_call` that
returned normally. -/
structure VideoCallResult where
  outcome : VideoOutcome
  cache : Cache (List VideoResult)
  adapterCalled : Bool
  deriving DecidableEq, Repr

/-- Models `YouTubeVideoSearchTool.async_call`; the `adapter` oracle gives
the behavior of `await self._search_videos(query, num_results)`. -/
def videoAsyncCall (args : VideoToolArgs) (configured ttl now : Int)
    (adapter : String → Int → Except String (List VideoResult))
    (cache : Cache (List VideoResult)) : Except String VideoCallResult :=
  match args.query with
  | none => .error "KeyError: query"
  | some query =>
    let numResults := videoGetNumResults configured args.num_results
    let autoPlay := args.auto_play.getD false
    let key := videoMakeCacheKey query numResults
    match cacheGet cache key ttl now with
    | (some data, c1) =>
      .ok ⟨.formatted (videoFormatResponse data query autoPlay), c1, false⟩
    | (none, c1) =>
      match adapter query numResults with
      | .error e => .ok ⟨.errored ("Video search failed: " ++ e), c1, true⟩
      | .ok results =>
        if results.isEmpty then
          .ok ⟨.empty "youtube" query false "No videos found for this query.",
            c1, true⟩
        else
          .ok ⟨.formatted (videoFormatResponse results query autoPlay),
            cacheSet c1 key now results, true⟩

/-! ## Image provider adapters: upstream result mapping

The network and JSON plumbing of `async_search_images` is external; the
embedded part is the loop that turns the decoded upstream JSON items into
result dicts (`searxng_image_search.py` lines 50-72,
`brave_image_search.py` lines 56-74). -/

/-- An upstream SearXNG result object: every field is read with
`item.get(...)`, so each may be absent. -/
structure SearxImageItem where
  img_src : Option String
  title : Option String
  thumbnail_src : Option String
  url : Option String
  engine : Option String
  deriving DecidableEq, Repr

/-- The result dict appended by the SearXNG image loop for one accepted
upstream item. -/
def searxngMkResult (item : SearxImageItem) : ImageResult :=
  { image_url := item.img_src.getD ""
    title := item.title.getD ""
    thumbnail_url := item.thumbnail_src.getD ""
    source_url := item.url.getD ""
    source := item.engine.getD ""
    width := none
    height := none }

/-- The acceptance test of the SearXNG image loop: the negation of
`if not img_src or not img_src.startswith("http"): continue`. -/
def searxngUsable (item : SearxImageItem) : Bool :=
  !(decide (item.img_src.getD "" = "") ||
    !(pyStartsWith (item.img_src.getD "") "http"))

/-- Models the result-collection loop of
`SearXNGImageSearchTool.async_search_images`: stop once `num_results`
results are collected (`need` is the number still wanted); skip items whose
`img_src` is missing, empty, or not an `http` URL. -/
def searxngCollectImages (items : List SearxImageItem) (need : Int) :
    List ImageResult :=
  match items with
  | [] => []
  | item :: rest =>
    if need ≤ 0 then []
    else
      let img := item.img_src.getD ""
      if decide (img = "") || !(pyStartsWith img "http") then
        searxngCollectImages rest need
      else
        searxngMkResult item :: searxngCollectImages rest (need - 1)

/-- An upstream Brave image result object: every field is read with
`.get(...)`, so each may be absent; `properties` and `thumbnail` are nested
objects flattened here into their read fields. -/
structure BraveImageItem where
  properties_url : Option String
  properties_width : Option Int
  properties_height : Option Int
  title : Option String
  thumbnail_src : Option String
  url : Option String
  source : Option String
  deriving DecidableEq, Repr

/-- Models the result-collection loop of
`BraveImageSearchTool.async_search_images`: every upstream item is mapped
to a result dict, with missing fields defaulted; no item is skipped. -/
def braveCollectImages (items : List BraveImageItem) : List ImageResult :=
  items.map (fun item =>
    { image_url := item.properties_url.getD ""
      title := item.title.getD ""
      thumbnail_url := item.thumbnail_src.getD ""
      source_url := item.url.getD ""
      source := item.source.getD ""
      width := item.properties_width
      height := item.properties_height })

/-! ## Weather forecast tool (`weather_forecast.py`): target-date resolution

Python `date`s are modelled by their proleptic-Gregorian ordinals
(`date.toordinal()`, a positive integer); ordinal 1 is a Monday and
`date.weekday()` is 0 for Monday, so `weekday(d) = (d + 6) % 7`.
`timedelta(days = n)` is ordinal addition. -/

/-- The `DAY_NAMES` constant: `DAY_NAMES.index(name)` is Python's weekday
number of that day. -/
def DAY_NAMES : List String :=
  ["monday", "tuesday", "wednesday", "thursday", "friday", "saturday",
   "sunday"]

/-- Models `date.weekday()` on an ordinal: 0 is Monday. -/
def dateWeekday (d : Nat) : Nat := (d + 6) % 7

/-- Models `WeatherForecastTool._resolve_target_date` on date ordinals.
`None` models Python `None` (the `"week"` range).  Python's `%` on
integers agrees with `Int.emod` for a positive modulus. -/
def resolveTargetDate (rangeValue : String) (today : Nat) : Option Nat :=
  if rangeValue = "week" then none
  else if rangeValue = "today" then some today
  else if rangeValue = "tomorrow" then some (today + 1)
  else if rangeValue ∈ DAY_NAMES then
    let targetWeekday : Int := DAY_NAMES.indexOf rangeValue
    let daysAhead : Int := (targetWeekday - (dateWeekday today : Int)) % 7
    let daysAhead : Int := if daysAhead = 0 then 7 else daysAhead
    some (today + daysAhead.toNat)
  else some today

/-! ## Financial tool (`finnhub_financial.py`): quote source selection

The embedded part is the control flow of `async_get_stock_quote`: which
quote sources are consulted, in which order, and how the outcome is
chosen.  Quote payload construction (company profile enrichment, CoinGecko
field mapping) does not influence that flow and the payloads are carried
abstractly; prices are carried as `Int` since the flow only compares the
equity price against `0` / `None`. -/

/-- The `CRYPTO_COINGECKO_IDS` mapping of crypto tickers to CoinGecko ids. -/
def CRYPTO_COINGECKO_IDS : List (String × String) :=
  [("BTC", "bitcoin"), ("ETH", "ethereum"), ("XRP", "ripple"),
   ("SOL", "solana"), ("ADA", "cardano"), ("DOGE", "dogecoin"),
   ("DOT", "polkadot"), ("AVAX", "avalanche-2"), ("LINK", "chainlink"),
   ("MATIC", "matic-network"), ("UNI", "uniswap"), ("SHIB", "shiba-inu"),
   ("LTC", "litecoin"), ("BCH", "bitcoin-cash"), ("ATOM", "cosmos"),
   ("XLM", "stellar"), ("ALGO", "algorand"), ("FIL", "filecoin"),
   ("NEAR", "near"), ("APT", "aptos"), ("ARB", "arbitrum"),
   ("OP", "optimism"), ("BNB", "binancecoin"), ("TRX", "tron"),
   ("ETC", "ethereum-classic"), ("XMR", "monero"), ("PEPE", "pepe"),
   ("SUI", "sui"), ("SEI", "sei-network")]

/-- Models `FinnhubFinancialTool._get_crypto_base`: uppercase the symbol,
then strip the first matching quote-currency suffix (provided a non-empty
base remains); the `for`/`return` loop is an if chain over the fixed
suffix tuple.  `base.endswith(suffix)` is list-suffix on the characters and
`base[:-len(suffix)]` keeps the first `len - len(suffix)` characters. -/
def getCryptoBase (symbol : String) : String :=
  let base := pyUpperL symbol.data
  if "USDT".data.isSuffixOf base ∧ base.length > 4 then
    ⟨base.take (base.length - 4)⟩
  else if "USD".data.isSuffixOf base ∧ base.length > 3 then
    ⟨base.take (base.length - 3)⟩
  else if "EUR".data.isSuffixOf base ∧ base.length > 3 then
    ⟨base.take (base.length - 3)⟩
  else if "GBP".data.isSuffixOf base ∧ base.length > 3 then
    ⟨base.take (base.length - 3)⟩
  else ⟨base⟩

/-- A successful CoinGecko quote payload as returned by
`_try_crypto_quote`, carried abstractly. -/
structure CGQuote where
  payload : String
  deriving DecidableEq, Repr

/-- Models `_try_crypto_quote`: when the base symbol is not in
`CRYPTO_COINGECKO_IDS` it returns `None` without any network call;
otherwise the oracle `resp` gives the outcome of the CoinGecko request
(the method catches its own exceptions, so it never raises). -/
def finnhubTryCrypto (base : String) (resp : Option CGQuote) : Option CGQuote :=
  if (CRYPTO_COINGECKO_IDS.lookup base).isSome then resp else none

/-- The value returned by `async_get_stock_quote`: a CoinGecko crypto dict
or a Finnhub equity dict (carried with its `c` price field). -/
inductive StockOutcome where
  | crypto (q : CGQuote)
  | equity (price : Int)
  deriving DecidableEq, Repr

/-- One quote-source consultation performed by `async_get_stock_quote`, in
call order. -/
inductive FinAction where
  | cryptoCall (base : String)
  | equityCall (symbol : String)
  deriving DecidableEq, Repr

/-- The zero-or-absent-price fallback of `async_get_stock_quote`: try
crypto as a last resort, else raise the no-quote-data error. -/
def finnhubZeroPriceRetry (base : String) (retryResp : Option CGQuote)
    (symbol : String) : Except String StockOutcome × List FinAction :=
  match finnhubTryCrypto base retryResp with
  | some q => (.ok (.crypto q), [.equityCall symbol, .cryptoCall base])
  | none =>
    (.error ("No quote data found for symbol " ++ symbol ++
      ". Check that the ticker is valid."),
     [.equityCall symbol, .cryptoCall base])

/-- The Finnhub `/quote` phase of `async_get_stock_quote`: a non-200
status raises; a `None` or `0` price `c` falls back to the crypto retry;
otherwise the equity quote is returned. -/
def finnhubEquityPhase (base : String) (retryResp : Option CGQuote)
    (status : Nat) (c : Option Int) (symbol : String) :
    Except String StockOutcome × List FinAction :=
  if status ≠ 200 then
    (.error ("Finnhub quote returned HTTP " ++ toString status),
     [.equityCall symbol])
  else
    match c with
    | none => finnhubZeroPriceRetry base retryResp symbol
    | some price =>
      if price = 0 then finnhubZeroPriceRetry base retryResp symbol
      else (.ok (.equity price), [.equityCall symbol])

/-- Models `FinnhubFinancialTool.async_get_stock_quote`.  Oracles:
`crypto1` is the CoinGecko outcome of the up-front crypto attempt (only
consulted when the stripped base is a known crypto ticker), `crypto2` the
outcome of the last-resort retry, `equityStatus`/`equityC` the Finnhub
`/quote` HTTP status and its `c` field.  The second component records the
quote sources consulted, in order. -/
def asyncGetStockQuote (apiKey : String) (crypto1 crypto2 : Option CGQuote)
    (equityStatus : Nat) (equityC : Option Int) (symbol : String) :
    Except String StockOutcome × List FinAction :=
  if apiKey = "" then (.error "Finnhub API key not configured", [])
  else
    let base := getCryptoBase symbol
    if (CRYPTO_COINGECKO_IDS.lookup base).isSome then
      match finnhubTryCrypto base crypto1 with
      | some q => (.ok (.crypto q), [.cryptoCall base])
      | none =>
        let r := finnhubEquityPhase base crypto2 equityStatus equityC symbol
        (r.1, .cryptoCall base :: r.2)
    else
      finnhubEquityPhase base crypto2 equityStatus equityC symbol

/-! ## Sample values for concrete instantiations -/

/-- A well-formed image result, as an image adapter would build it. -/
def sampleImageResult : ImageResult :=
  { image_url := "https://img.example/cat.jpg"
    title := "Cat"
    thumbnail_url := ""
    source_url := ""
    source := ""
    width := none
    height := none }

/-- A second well-formed image result. -/
def sampleImageResult2 : ImageResult :=
  { image_url := "https://img.example/cat2.jpg"
    title := "Another cat"
    thumbnail_url := ""
    source_url := ""
    source := ""
    width := none
    height := none }

/-- A well-formed web result, as a web adapter would build it. -/
def sampleWebResult : WebResult :=
  { url := "https://example.com/page"
    title := "Example"
    snippet := "An example page."
    thumbnail_url := "" }

/-- A well-formed video result, as `_search_videos` would build it. -/
def sampleVideoResult : VideoResult :=
  { video_url := "https://www.youtube.com/watch?v=abc"
    video_id := "abc"
    title := "A video"
    description := ""
    thumbnail_url := ""
    channel_name := ""
    published_at := ""
    duration := ""
    view_count := "" }

/-- A well-formed upstream SearXNG image item. -/
def sampleSearxItem : SearxImageItem :=
  ⟨some "https://img.example/cat.jpg", some "Cat", none, none, none⟩

/-- An upstream Brave image item with no direct image URL (malformed in
the sense of the spec). -/
def malformedBraveItem : BraveImageItem :=
  ⟨none, none, none, some "cat", none, some "https://page.example",
    some "example"⟩

/-! # Proofs -/

/-! ## Cache store lemmas -/

theorem cacheLookup_cacheSet_self {α : Type} (c : Cache α) (k : CacheKey)
    (now : Int) (d : α) : cacheLookup (cacheSet c k now d) k = some ⟨now, d⟩ := by
  simp [cacheSet, cacheLookup]

theorem cacheLookup_cachePop_self {α : Type} (c : Cache α) (k : CacheKey) :
    cacheLookup (cachePop c k) k = none := by
  induction c with
  | nil => rfl
  | cons p rest ih =>
    by_cases h : p.1 = k
    · simpa [cachePop, h] using ih
    · simpa [cachePop, cacheLookup, h] using ih

theorem cacheGet_of_lookup_none {α : Type} {c : Cache α} {k : CacheKey}
    (ttl now : Int) (h : cacheLookup c k = none) :
    cacheGet c k ttl now = (none, c) := by
  simp [cacheGet, h]


/-! ## Python string lemmas -/

theorem toLower_of_pyIsSpace {c : Char} (h : pyIsSpace c = true) :
    Char.toLower c = c := by
  simp only [pyIsSpace, Bool.or_eq_true, decide_eq_true_eq] at h
  rcases h with ((((h | h) | h) | h) | h) | h <;> subst h <;> decide

theorem pyLowerL_append (a b : List Char) :
    pyLowerL (a ++ b) = pyLowerL a ++ pyLowerL b := by
  simp [pyLowerL]

theorem pyLowerL_all_space {ws : List Char}
    (h : ∀ c ∈ ws, pyIsSpace c = true) :
    ∀ c ∈ pyLowerL ws, pyIsSpace c = true := by
  intro c hc
  simp only [pyLowerL, List.mem_map] at hc
  obtain ⟨a, ha, rfl⟩ := hc
  rw [toLower_of_pyIsSpace (h a ha)]
  exact h a ha

theorem dropWhile_append_all {α : Type} (p : α → Bool) (l1 l2 : List α)
    (h : ∀ c ∈ l1, p c = true) :
    (l1 ++ l2).dropWhile p = l2.dropWhile p := by
  induction l1 with
  | nil => simp
  | cons a t ih =>
    have ha : p a = true := h a (List.mem_cons_self a t)
    simpa [List.dropWhile_cons, ha] using
      ih (fun c hc => h c (List.mem_cons_of_mem a hc))

theorem dropWhile_append_of_ne_nil {α : Type} (p : α → Bool) (l1 l2 : List α)
    (h : l1.dropWhile p ≠ []) :
    (l1 ++ l2).dropWhile p = l1.dropWhile p ++ l2 := by
  induction l1 with
  | nil => simp at h
  | cons a t ih =>
    by_cases hp : p a = true
    · have h2 : t.dropWhile p ≠ [] := by
        simpa [List.dropWhile_cons, hp] using h
      simp [List.dropWhile_cons, hp, ih h2]
    · simp [List.dropWhile_cons, hp]

theorem pyStripL_append_left {ws l : List Char}
    (h : ∀ c ∈ ws, pyIsSpace c = true) :
    pyStripL (ws ++ l) = pyStripL l := by
  unfold pyStripL
  rw [dropWhile_append_all _ ws l h]

theorem pyStripL_append_right {l ws : List Char}
    (h : ∀ c ∈ ws, pyIsSpace c = true) :
    pyStripL (l ++ ws) = pyStripL l := by
  unfold pyStripL
  by_cases hd : l.dropWhile pyIsSpace = []
  · have hl : ∀ c ∈ l, pyIsSpace c = true := by
      rw [List.dropWhile_eq_nil_iff] at hd
      exact hd
    have hall : (l ++ ws).dropWhile pyIsSpace = [] := by
      rw [List.dropWhile_eq_nil_iff]
      intro x hx
      rcases List.mem_append.mp hx with h1 | h2
      · exact hl x h1
      · exact h x h2
    rw [hall, hd]
  · rw [dropWhile_append_of_ne_nil _ _ _ hd, List.reverse_append,
      dropWhile_append_all _ ws.reverse _
        (fun c hc => h c (List.mem_reverse.mp hc))]

theorem normalizeQuery_pad (q : String) (ws1 ws2 : List Char)
    (h1 : ∀ c ∈ ws1, pyIsSpace c = true)
    (h2 : ∀ c ∈ ws2, pyIsSpace c = true) :
    normalizeQuery ⟨ws1 ++ q.data ++ ws2⟩ = normalizeQuery q := by
  unfold normalizeQuery
  show String.mk _ = String.mk _
  congr 1
  rw [pyLowerL_append, pyLowerL_append]
  rw [pyStripL_append_right (pyLowerL_all_space h2)]
  rw [pyStripL_append_left (pyLowerL_all_space h1)]

theorem normalizeQuery_of_pyLower_eq {q1 q2 : String}
    (h : pyLower q1 = pyLower q2) : normalizeQuery q1 = normalizeQuery q2 := by
  unfold normalizeQuery
  have hdata : pyLowerL q1.data = pyLowerL q2.data := congrArg String.data h
  rw [hdata]

/-! ## Claim C2: cache TTL expiry -/

/-- C2: an entry written at time `T` and read with `ttl = 60` is returned
with the stored payload at `T + 59` (store untouched) and treated as absent
at `T + 61`, at which point the expired entry is popped from the store. -/
theorem cache_ttl_expiry :
    ∀ (c : Cache (List ImageResult)) (k : CacheKey) (T : Int)
      (d : List ImageResult),
      cacheGet (cacheSet c k T d) k 60 (T + 59) = (some d, cacheSet c k T d) ∧
      cacheGet (cacheSet c k T d) k 60 (T + 61) =
        (none, cachePop (cacheSet c k T d) k) ∧
      cacheLookup (cacheGet (cacheSet c k T d) k 60 (T + 61)).2 k = none := by
  intro c k T d
  have hl := cacheLookup_cacheSet_self c k T d
  have h59 : ¬ (T + 59 - (⟨T, d⟩ : CacheEntry (List ImageResult)).ts > 60) := by
    show ¬ (T + 59 - T > 60)
    omega
  have h61 : T + 61 - (⟨T, d⟩ : CacheEntry (List ImageResult)).ts > 60 := by
    show T + 61 - T > 60
    omega
  refine ⟨?_, ?_, ?_⟩
  · simp only [cacheGet, hl]
    rw [if_neg h59]
  · simp only [cacheGet, hl]
    rw [if_pos h61]
  · simp only [cacheGet, hl]
    rw [if_pos h61]
    exact cacheLookup_cachePop_self _ _

/-! ## Claim C4: cache key determinism and normalization -/

/-- C4: the cache key builders are deterministic functions of their
inputs; queries padded with whitespace or differing only in letter case
produce the same key for the same count, and in particular "Cats",
"cats " and " CATS" collide. -/
theorem cache_key_normalization :
    (∀ (q1 q2 : String) (n1 n2 : Int), q1 = q2 → n1 = n2 →
      imageMakeCacheKey q1 n1 = imageMakeCacheKey q2 n2 ∧
      webMakeCacheKey q1 n1 = webMakeCacheKey q2 n2) ∧
    (∀ (q : String) (n : Int) (ws1 ws2 : List Char),
      (∀ c ∈ ws1, pyIsSpace c = true) → (∀ c ∈ ws2, pyIsSpace c = true) →
      imageMakeCacheKey ⟨ws1 ++ q.data ++ ws2⟩ n = imageMakeCacheKey q n ∧
      webMakeCacheKey ⟨ws1 ++ q.data ++ ws2⟩ n = webMakeCacheKey q n) ∧
    (∀ (q1 q2 : String) (n : Int), pyLower q1 = pyLower q2 →
      imageMakeCacheKey q1 n = imageMakeCacheKey q2 n ∧
      webMakeCacheKey q1 n = webMakeCacheKey q2 n) ∧
    (∀ n : Int,
      imageMakeCacheKey "Cats" n = imageMakeCacheKey "cats " n ∧
      imageMakeCacheKey "cats " n = imageMakeCacheKey " CATS" n ∧
      webMakeCacheKey "Cats" n = webMakeCacheKey " CATS" n) := by
  refine ⟨?_, ?_, ?_, ?_⟩
  · rintro q1 q2 n1 n2 rfl rfl
    exact ⟨rfl, rfl⟩
  · intro q n ws1 ws2 h1 h2
    have h := normalizeQuery_pad q ws1 ws2 h1 h2
    exact ⟨by simp only [imageMakeCacheKey]; rw [h],
      by simp only [webMakeCacheKey]; rw [h]⟩
  · intro q1 q2 n h
    have h2 := normalizeQuery_of_pyLower_eq h
    exact ⟨by simp only [imageMakeCacheKey]; rw [h2],
      by simp only [webMakeCacheKey]; rw [h2]⟩
  · intro n
    have h1 : normalizeQuery "Cats" = normalizeQuery "cats " := by decide
    have h2 : normalizeQuery "cats " = normalizeQuery " CATS" := by decide
    refine ⟨?_, ?_, ?_⟩
    · simp [imageMakeCacheKey, h1]
    · simp [imageMakeCacheKey, h2]
    · simp [webMakeCacheKey, h1, h2]

/-- Witness for C4 at concrete inputs: padding "cats" with one space on
each side leaves the image and web cache keys unchanged. -/
theorem cache_key_normalization_witness :
    imageMakeCacheKey ⟨[' '] ++ "cats".data ++ [' ']⟩ 3 =
      imageMakeCacheKey "cats" 3 ∧
    webMakeCacheKey ⟨[' '] ++ "cats".data ++ [' ']⟩ 3 =
      webMakeCacheKey "cats" 3 :=
  cache_key_normalization.2.1 "cats" 3 [' '] [' ']
    (by decide) (by decide)

/-! ## Branch behavior of the three `async_call` embeddings -/

section AsyncCallLemmas

variable {configured ttl now : Int}

theorem imageAsyncCall_hit {args : ImageToolArgs} {q : String}
    {e : CacheEntry (List ImageResult)}
    (adapter : String → Int → Except String (List ImageResult))
    {cache : Cache (List ImageResult)}
    (hq : args.query = some q)
    (he : cacheLookup cache
      (imageMakeCacheKey q (imageGetNumResults configured args.num_results)) = some e)
    (hfresh : now - e.ts ≤ ttl) :
    imageAsyncCall args configured ttl now adapter cache =
      .ok ⟨.formatted (imageFormatResponse e.data q (args.auto_display.getD false)),
        cache, false⟩ := by
  unfold imageAsyncCall
  rw [hq]
  simp only [cacheGet, he, if_neg (not_lt.mpr hfresh)]

theorem imageAsyncCall_miss_empty {args : ImageToolArgs} {q : String}
    {adapter : String → Int → Except String (List ImageResult)}
    {cache : Cache (List ImageResult)}
    (hq : args.query = some q)
    (hmiss : (cacheGet cache
      (imageMakeCacheKey q (imageGetNumResults configured args.num_results)) ttl now).1
      = none)
    (hrs : adapter q (imageGetNumResults configured args.num_results) = .ok []) :
    imageAsyncCall args configured ttl now adapter cache =
      .ok ⟨.empty q false "No images found for this query.",
        (cacheGet cache
          (imageMakeCacheKey q (imageGetNumResults configured args.num_results)) ttl now).2,
        true⟩ := by
  rcases hc : cacheGet cache
    (imageMakeCacheKey q (imageGetNumResults configured args.num_results)) ttl now
    with ⟨o, c1⟩
  rw [hc] at hmiss
  simp only at hmiss
  subst hmiss
  simp [imageAsyncCall, hq, hc, hrs]

theorem imageAsyncCall_miss_success {args : ImageToolArgs} {q : String}
    {adapter : String → Int → Except String (List ImageResult)}
    {cache : Cache (List ImageResult)} {rs : List ImageResult}
    (hq : args.query = some q)
    (hmiss : (cacheGet cache
      (imageMakeCacheKey q (imageGetNumResults configured args.num_results)) ttl now).1
      = none)
    (hrs : adapter q (imageGetNumResults configured args.num_results) = .ok rs)
    (hne : rs ≠ []) :
    imageAsyncCall args configured ttl now adapter cache =
      .ok ⟨.formatted (imageFormatResponse rs q (args.auto_display.getD false)),
        cacheSet
          (cacheGet cache
            (imageMakeCacheKey q (imageGetNumResults configured args.num_results)) ttl now).2
          (imageMakeCacheKey q (imageGetNumResults configured args.num_results)) now rs,
        true⟩ := by
  rcases hc : cacheGet cache
    (imageMakeCacheKey q (imageGetNumResults configured args.num_results)) ttl now
    with ⟨o, c1⟩
  rw [hc] at hmiss
  simp only at hmiss
  subst hmiss
  simp [imageAsyncCall, hq, hc, hrs, List.isEmpty_iff, hne]

theorem imageAsyncCall_isOk {args : ImageToolArgs} {q : String}
    {adapter : String → Int → Except String (List ImageResult)}
    {cache : Cache (List ImageResult)}
    (hq : args.query = some q) :
    ∃ r, imageAsyncCall args configured ttl now adapter cache = .ok r := by
  rcases hc : cacheGet cache
    (imageMakeCacheKey q (imageGetNumResults configured args.num_results)) ttl now
    with ⟨o, c1⟩
  cases o with
  | some data => simp [imageAsyncCall, hq, hc]
  | none =>
    cases hr : adapter q (imageGetNumResults configured args.num_results) with
    | error e => simp [imageAsyncCall, hq, hc, hr]
    | ok rs =>
      by_cases hempty : rs.isEmpty
      · simp [imageAsyncCall, hq, hc, hr, hempty]
      · simp [imageAsyncCall, hq, hc, hr, hempty]

theorem imageAsyncCall_formatted_eq {args : ImageToolArgs}
    {adapter : String → Int → Except String (List ImageResult)}
    {cache : Cache (List ImageResult)} {r : ImageCallResult}
    {resp : ImageFormatted}
    (h : imageAsyncCall args configured ttl now adapter cache = .ok r)
    (hf : r.outcome = .formatted resp) :
    resp.num_results = resp.results.length := by
  rcases hargs : args.query with _ | q
  · simp [imageAsyncCall, hargs] at h
  · rcases hc : cacheGet cache
      (imageMakeCacheKey q (imageGetNumResults configured args.num_results)) ttl now
      with ⟨o, c1⟩
    cases o with
    | some data =>
      simp [imageAsyncCall, hargs, hc] at h
      subst h
      simp only [ImageOutcome.formatted.injEq] at hf
      subst hf
      simp [imageFormatResponse]
    | none =>
      cases hr : adapter q (imageGetNumResults configured args.num_results) with
      | error e =>
        simp [imageAsyncCall, hargs, hc, hr] at h
        subst h
        simp at hf
      | ok rs =>
        by_cases hempty : rs.isEmpty
        · simp [imageAsyncCall, hargs, hc, hr, hempty] at h
          subst h
          simp at hf
        · simp [imageAsyncCall, hargs, hc, hr, hempty] at h
          subst h
          simp only [ImageOutcome.formatted.injEq] at hf
          subst hf
          simp [imageFormatResponse]

theorem webAsyncCall_hit {source : String} {args : WebToolArgs} {q : String}
    {e : CacheEntry (List WebResult)}
    (adapter : String → Int → Except String (List WebResult))
    {cache : Cache (List WebResult)}
    (hq : args.query = some q)
    (he : cacheLookup cache
      (webMakeCacheKey q (webGetNumResults configured args.num_results)) = some e)
    (hfresh : now - e.ts ≤ ttl) :
    webAsyncCall source args configured ttl now adapter cache =
      .ok ⟨.formatted (webFormatResponse source e.data q), cache, false⟩ := by
  unfold webAsyncCall
  rw [hq]
  simp only [cacheGet, he, if_neg (not_lt.mpr hfresh)]

theorem webAsyncCall_isOk {source : String} {args : WebToolArgs} {q : String}
    {adapter : String → Int → Except String (List WebResult)}
    {cache : Cache (List WebResult)}
    (hq : args.query = some q) :
    ∃ r, webAsyncCall source args configured ttl now adapter cache = .ok r := by
  rcases hc : cacheGet cache
    (webMakeCacheKey q (webGetNumResults configured args.num_results)) ttl now
    with ⟨o, c1⟩
  cases o with
  | some data => simp [webAsyncCall, hq, hc]
  | none =>
    cases hr : adapter q (webGetNumResults configured args.num_results) with
    | error e => simp [webAsyncCall, hq, hc, hr]
    | ok rs =>
      by_cases hempty : rs.isEmpty
      · simp [webAsyncCall, hq, hc, hr, hempty]
      · simp [webAsyncCall, hq, hc, hr, hempty]

theorem webAsyncCall_miss_success {source : String} {args : WebToolArgs}
    {q : String} {adapter : String → Int → Except String (List WebResult)}
    {cache : Cache (List WebResult)} {rs : List WebResult}
    (hq : args.query = some q)
    (hmiss : (cacheGet cache
      (webMakeCacheKey q (webGetNumResults configured args.num_results)) ttl now).1
      = none)
    (hrs : adapter q (webGetNumResults configured args.num_results) = .ok rs)
    (hne : rs ≠ []) :
    webAsyncCall source args configured ttl now adapter cache =
      .ok ⟨.formatted (webFormatResponse source rs q),
        cacheSet
          (cacheGet cache
            (webMakeCacheKey q (webGetNumResults configured args.num_results)) ttl now).2
          (webMakeCacheKey q (webGetNumResults configured args.num_results)) now rs,
        true⟩ := by
  rcases hc : cacheGet cache
    (webMakeCacheKey q (webGetNumResults configured args.num_results)) ttl now
    with ⟨o, c1⟩
  rw [hc] at hmiss
  simp only at hmiss
  subst hmiss
  simp [webAsyncCall, hq, hc, hrs, List.isEmpty_iff, hne]

theorem webAsyncCall_formatted_eq {source : String} {args : WebToolArgs}
    {adapter : String → Int → Except String (List WebResult)}
    {cache : Cache (List WebResult)} {r : WebCallResult}
    {resp : WebFormatted}
    (h : webAsyncCall source args configured ttl now adapter cache = .ok r)
    (hf : r.outcome = .formatted resp) :
    resp.num_results = resp.results.length := by
  rcases hargs : args.query with _ | q
  · simp [webAsyncCall, hargs] at h
  · rcases hc : cacheGet cache
      (webMakeCacheKey q (webGetNumResults configured args.num_results)) ttl now
      with ⟨o, c1⟩
    cases o with
    | some data =>
      simp [webAsyncCall, hargs, hc] at h
      subst h
      simp only [WebOutcome.formatted.injEq] at hf
      subst hf
      simp [webFormatResponse]
    | none =>
      cases hr : adapter q (webGetNumResults configured args.num_results) with
      | error e =>
        simp [webAsyncCall, hargs, hc, hr] at h
        subst h
        simp at hf
      | ok rs =>
        by_cases hempty : rs.isEmpty
        · simp [webAsyncCall, hargs, hc, hr, hempty] at h
          subst h
          simp at hf
        · simp [webAsyncCall, hargs, hc, hr, hempty] at h
          subst h
          simp only [WebOutcome.formatted.injEq] at hf
          subst hf
          simp [webFormatResponse]

theorem videoAsyncCall_hit {args : VideoToolArgs} {q : String}
    {e : CacheEntry (List VideoResult)}
    (adapter : String → Int → Except String (List VideoResult))
    {cache : Cache (List VideoResult)}
    (hq : args.query = some q)
    (he : cacheLookup cache
      (videoMakeCacheKey q (videoGetNumResults configured args.num_results)) = some e)
    (hfresh : now - e.ts ≤ ttl) :
    videoAsyncCall args configured ttl now adapter cache =
      .ok ⟨.formatted (videoFormatResponse e.data q (args.auto_play.getD false)),
        cache, false⟩ := by
  unfold videoAsyncCall
  rw [hq]
  simp only [cacheGet, he, if_neg (not_lt.mpr hfresh)]

theorem videoAsyncCall_isOk {args : VideoToolArgs} {q : String}
    {adapter : String → Int → Except String (List VideoResult)}
    {cache : Cache (List VideoResult)}
    (hq : args.query = some q) :
    ∃ r, videoAsyncCall args configured ttl now adapter cache = .ok r := by
  rcases hc : cacheGet cache
    (videoMakeCacheKey q (videoGetNumResults configured args.num_results)) ttl now
    with ⟨o, c1⟩
  cases o with
  | some data => simp [videoAsyncCall, hq, hc]
  | none =>
    cases hr : adapter q (videoGetNumResults configured args.num_results) with
    | error e => simp [videoAsyncCall, hq, hc, hr]
    | ok rs =>
      by_cases hempty : rs.isEmpty
      · simp [videoAsyncCall, hq, hc, hr, hempty]
      · simp [videoAsyncCall, hq, hc, hr, hempty]

theorem videoAsyncCall_miss_success {args : VideoToolArgs} {q : String}
    {adapter : String → Int → Except String (List VideoResult)}
    {cache : Cache (List VideoResult)} {rs : List VideoResult}
    (hq : args.query = some q)
    (hmiss : (cacheGet cache
      (videoMakeCacheKey q (videoGetNumResults configured args.num_results)) ttl now).1
      = none)
    (hrs : adapter q (videoGetNumResults configured args.num_results) = .ok rs)
    (hne : rs ≠ []) :
    videoAsyncCall args configured ttl now adapter cache =
      .ok ⟨.formatted (videoFormatResponse rs q (args.auto_play.getD false)),
        cacheSet
          (cacheGet cache
            (videoMakeCacheKey q (videoGetNumResults configured args.num_results)) ttl now).2
          (videoMakeCacheKey q (videoGetNumResults configured args.num_results)) now rs,
        true⟩ := by
  rcases hc : cacheGet cache
    (videoMakeCacheKey q (videoGetNumResults configured args.num_results)) ttl now
    with ⟨o, c1⟩
  rw [hc] at hmiss
  simp only at hmiss
  subst hmiss
  simp [videoAsyncCall, hq, hc, hrs, List.isEmpty_iff, hne]

theorem videoAsyncCall_formatted_eq {args : VideoToolArgs}
    {adapter : String → Int → Except String (List VideoResult)}
    {cache : Cache (List VideoResult)} {r : VideoCallResult}
    {resp : VideoFormatted}
    (h : videoAsyncCall args configured ttl now adapter cache = .ok r)
    (hf : r.outcome = .formatted resp) :
    resp.num_results = resp.results.length := by
  rcases hargs : args.query with _ | q
  · simp [videoAsyncCall, hargs] at h
  · rcases hc : cacheGet cache
      (videoMakeCacheKey q (videoGetNumResults configured args.num_results)) ttl now
      with ⟨o, c1⟩
    cases o with
    | some data =>
      simp [videoAsyncCall, hargs, hc] at h
      subst h
      simp only [VideoOutcome.formatted.injEq] at hf
      subst hf
      simp [videoFormatResponse]
    | none =>
      cases hr : adapter q (videoGetNumResults configured args.num_results) with
      | error e =>
        simp [videoAsyncCall, hargs, hc, hr] at h
        subst h
        simp at hf
      | ok rs =>
        by_cases hempty : rs.isEmpty
        · simp [videoAsyncCall, hargs, hc, hr, hempty] at h
          subst h
          simp at hf
        · simp [videoAsyncCall, hargs, hc, hr, hempty] at h
          subst h
          simp only [VideoOutcome.formatted.injEq] at hf
          subst hf
          simp [videoFormatResponse]

end AsyncCallLemmas

/-! ## Claim C5: result-count resolution -/

/-- C5 counterexample: the image resolver applies no hard ceiling of its
own — with a configured value of 15 and no explicit argument it passes 15
to the adapter, above the claimed ceiling of 10. -/
theorem image_num_results_no_hard_ceiling :
    imageGetNumResults 15 none = 15 ∧ ¬ imageGetNumResults 15 none ≤ 10 := by
  decide

/-- C5 (amended): the resolvers return `min(explicit, configured)` when the
caller supplies a count (the web tool first clamps `configured` to 6) and
the (clamped) configured value otherwise; the web count never exceeds 6
regardless of configuration, while the image/video count stays within 10
only when the configured value and the explicit argument respect their
schema bound of 10 — the resolver itself applies no ceiling.  Requesting 50
results with configured maximum 5 passes exactly 5 to the adapter. -/
theorem result_count_resolution :
    (∀ c e : Int, imageGetNumResults c (some e) = min e c ∧
      videoGetNumResults c (some e) = min e c ∧
      webGetNumResults c (some e) = min e (min c 6)) ∧
    (∀ c : Int, imageGetNumResults c none = c ∧
      videoGetNumResults c none = c ∧
      webGetNumResults c none = min c 6) ∧
    (∀ (c : Int) (o : Option Int), webGetNumResults c o ≤ 6) ∧
    (∀ c e : Int, c ≤ 10 → e ≤ 10 →
      imageGetNumResults c (some e) ≤ 10 ∧ imageGetNumResults c none ≤ 10 ∧
      videoGetNumResults c (some e) ≤ 10 ∧ videoGetNumResults c none ≤ 10) ∧
    (imageGetNumResults 5 (some 50) = 5 ∧ videoGetNumResults 5 (some 50) = 5 ∧
      webGetNumResults 5 (some 50) = 5) := by
  refine ⟨?_, ?_, ?_, ?_, ?_⟩
  · intro c e
    exact ⟨rfl, rfl, rfl⟩
  · intro c
    exact ⟨rfl, rfl, rfl⟩
  · intro c o
    cases o with
    | none =>
      simp only [webGetNumResults]
      omega
    | some e =>
      simp only [webGetNumResults]
      omega
  · intro c e hc he
    refine ⟨?_, ?_, ?_, ?_⟩ <;> simp only [imageGetNumResults, videoGetNumResults] <;> omega
  · exact ⟨by decide, by decide, by decide⟩

/-- Witness for C5 at concrete inputs: with configured 3 and explicit 7
(both within the schema bound of 10) the image and video resolvers stay
within 10. -/
theorem result_count_resolution_witness :
    imageGetNumResults 3 (some 7) ≤ 10 ∧ imageGetNumResults 3 none ≤ 10 ∧
    videoGetNumResults 3 (some 7) ≤ 10 ∧ videoGetNumResults 3 none ≤ 10 :=
  result_count_resolution.2.2.2.1 3 7 (by decide) (by decide)

/-! ## Claim C1: cache hits bypass the adapter -/

/-- C1: when the computed key holds a non-expired entry, none of the three
search tools invokes its provider adapter, the store is not written, and
the response is formatted from the cached payload with the per-call display
hint (`auto_display` / `auto_play`) taken from the current call's
arguments. -/
theorem cache_hit_bypasses_adapter :
    (∀ (args : ImageToolArgs) (configured ttl now : Int)
      (adapter : String → Int → Except String (List ImageResult))
      (cache : Cache (List ImageResult)) (q : String)
      (e : CacheEntry (List ImageResult)),
      args.query = some q →
      cacheLookup cache
        (imageMakeCacheKey q (imageGetNumResults configured args.num_results))
        = some e →
      now - e.ts ≤ ttl →
      imageAsyncCall args configured ttl now adapter cache =
        .ok ⟨.formatted (imageFormatResponse e.data q
          (args.auto_display.getD false)), cache, false⟩) ∧
    (∀ (source : String) (args : WebToolArgs) (configured ttl now : Int)
      (adapter : String → Int → Except String (List WebResult))
      (cache : Cache (List WebResult)) (q : String)
      (e : CacheEntry (List WebResult)),
      args.query = some q →
      cacheLookup cache
        (webMakeCacheKey q (webGetNumResults configured args.num_results))
        = some e →
      now - e.ts ≤ ttl →
      webAsyncCall source args configured ttl now adapter cache =
        .ok ⟨.formatted (webFormatResponse source e.data q), cache, false⟩) ∧
    (∀ (args : VideoToolArgs) (configured ttl now : Int)
      (adapter : String → Int → Except String (List VideoResult))
      (cache : Cache (List VideoResult)) (q : String)
      (e : CacheEntry (List VideoResult)),
      args.query = some q →
      cacheLookup cache
        (videoMakeCacheKey q (videoGetNumResults configured args.num_results))
        = some e →
      now - e.ts ≤ ttl →
      videoAsyncCall args configured ttl now adapter cache =
        .ok ⟨.formatted (videoFormatResponse e.data q
          (args.auto_play.getD false)), cache, false⟩) :=
  ⟨fun _ _ _ _ adapter _ _ _ hq he hf => imageAsyncCall_hit adapter hq he hf,
   fun _ _ _ _ _ adapter _ _ _ hq he hf => webAsyncCall_hit adapter hq he hf,
   fun _ _ _ _ adapter _ _ _ hq he hf => videoAsyncCall_hit adapter hq he hf⟩

/-- Witness for C1 at a concrete cache hit: the adapter value is an error
oracle, yet the call succeeds from the cached payload with the fresh
call's `auto_display = true`, leaving the store untouched. -/
theorem cache_hit_bypasses_adapter_witness :
    imageAsyncCall ⟨some "cats", none, some true⟩ 3 3600 100
      (fun _ _ => .error "unreached")
      [(("cats", 3), ⟨50, [sampleImageResult]⟩)] =
      .ok ⟨.formatted (imageFormatResponse [sampleImageResult] "cats" true),
        [(("cats", 3), ⟨50, [sampleImageResult]⟩)], false⟩ :=
  cache_hit_bypasses_adapter.1 ⟨some "cats", none, some true⟩ 3 3600 100
    (fun _ _ => .error "unreached")
    [(("cats", 3), ⟨50, [sampleImageResult]⟩)] "cats"
    ⟨50, [sampleImageResult]⟩ rfl rfl (by decide)

/-! ## Claim C6: exception handling at the tool boundary -/

/-- C6 counterexample: `tool_args["query"]` is evaluated before the `try`
block, so a call without a `query` argument propagates the `KeyError`
instead of returning an error dict. -/
theorem async_call_missing_query_raises :
    imageAsyncCall ⟨none, none, none⟩ 3 3600 0 (fun _ _ => .ok []) [] =
      .error "KeyError: query" := rfl

/-- C6 (amended): once the required `query` argument is present, every
exception raised inside the `try` block — including any adapter failure —
is caught and converted to a structured dict: all three `async_call`
entry points return normally for every adapter behavior.  (Argument
extraction itself runs before the `try` block, so a missing `query`
propagates.) -/
theorem async_call_total_given_query :
    (∀ (args : ImageToolArgs) (configured ttl now : Int)
      (adapter : String → Int → Except String (List ImageResult))
      (cache : Cache (List ImageResult)) (q : String),
      args.query = some q →
      ∃ r, imageAsyncCall args configured ttl now adapter cache = .ok r) ∧
    (∀ (source : String) (args : WebToolArgs) (configured ttl now : Int)
      (adapter : String → Int → Except String (List WebResult))
      (cache : Cache (List WebResult)) (q : String),
      args.query = some q →
      ∃ r, webAsyncCall source args configured ttl now adapter cache = .ok r) ∧
    (∀ (args : VideoToolArgs) (configured ttl now : Int)
      (adapter : String → Int → Except String (List VideoResult))
      (cache : Cache (List VideoResult)) (q : String),
      args.query = some q →
      ∃ r, videoAsyncCall args configured ttl now adapter cache = .ok r) :=
  ⟨fun _ _ _ _ _ _ _ hq => imageAsyncCall_isOk hq,
   fun _ _ _ _ _ _ _ _ hq => webAsyncCall_isOk hq,
   fun _ _ _ _ _ _ _ hq => videoAsyncCall_isOk hq⟩

/-- Witness for C6 at a concrete input: an adapter that raises still
yields a structured (caught) result once `query` is present. -/
theorem async_call_total_given_query_witness :
    ∃ r, imageAsyncCall ⟨some "cats", none, none⟩ 3 3600 0
      (fun _ _ => .error "HTTP 500") [] = .ok r :=
  async_call_total_given_query.1 ⟨some "cats", none, none⟩ 3 3600 0
    (fun _ _ => .error "HTTP 500") [] "cats" rfl

/-! ## Claim C3: empty results never cached -/

theorem cacheGet_fst_none_lookup {α : Type} {c : Cache α} {k : CacheKey}
    {ttl now : Int} (h : (cacheGet c k ttl now).1 = none) :
    cacheLookup (cacheGet c k ttl now).2 k = none := by
  cases hl : cacheLookup c k with
  | none =>
    simp [cacheGet_of_lookup_none ttl now hl, hl]
  | some e =>
    by_cases hexp : now - e.ts > ttl
    · have heq : cacheGet c k ttl now = (none, cachePop c k) := by
        simp [cacheGet, hl, hexp]
      simp [heq, cacheLookup_cachePop_self]
    · have heq : cacheGet c k ttl now = (some e.data, c) := by
        simp [cacheGet, hl, hexp]
      rw [heq] at h
      simp at h

/-- C3 counterexample: a zero-result call whose key holds an expired entry
does change the cache store — the lookup evicts the expired entry — so
"the cache store is unchanged" does not hold of every zero-result call. -/
theorem empty_results_evicts_expired_entry :
    imageAsyncCall ⟨some "cats", none, none⟩ 3 60 100 (fun _ _ => .ok [])
      [(("cats", 3), ⟨0, [sampleImageResult]⟩)] =
      .ok ⟨.empty "cats" false "No images found for this query.", [], true⟩ ∧
    ([] : Cache (List ImageResult)) ≠
      [(("cats", 3), ⟨0, [sampleImageResult]⟩)] := by
  exact ⟨rfl, by simp⟩

/-- C3 (amended): when the cache lookup misses and the adapter returns
zero items, the image tool returns the empty-results response with its
message, creates no entry under the computed key (the store is unchanged
whenever it held no entry for the key; an expired entry is evicted by the
lookup itself), and a subsequent identical call misses again and invokes
the adapter once more. -/
theorem empty_results_never_cached :
    ∀ (args : ImageToolArgs) (configured ttl now : Int)
      (adapter : String → Int → Except String (List ImageResult))
      (cache : Cache (List ImageResult)) (q : String),
      args.query = some q →
      (cacheGet cache
        (imageMakeCacheKey q (imageGetNumResults configured args.num_results))
        ttl now).1 = none →
      adapter q (imageGetNumResults configured args.num_results) = .ok [] →
      imageAsyncCall args configured ttl now adapter cache =
        .ok ⟨.empty q false "No images found for this query.",
          (cacheGet cache
            (imageMakeCacheKey q (imageGetNumResults configured args.num_results))
            ttl now).2, true⟩ ∧
      cacheLookup
        (cacheGet cache
          (imageMakeCacheKey q (imageGetNumResults configured args.num_results))
          ttl now).2
        (imageMakeCacheKey q (imageGetNumResults configured args.num_results))
        = none ∧
      (cacheLookup cache
        (imageMakeCacheKey q (imageGetNumResults configured args.num_results))
        = none →
        (cacheGet cache
          (imageMakeCacheKey q (imageGetNumResults configured args.num_results))
          ttl now).2 = cache) ∧
      (∀ now2 : Int,
        imageAsyncCall args configured ttl now2 adapter
          (cacheGet cache
            (imageMakeCacheKey q (imageGetNumResults configured args.num_results))
            ttl now).2 =
          .ok ⟨.empty q false "No images found for this query.",
            (cacheGet cache
              (imageMakeCacheKey q
                (imageGetNumResults configured args.num_results)) ttl now).2,
            true⟩) := by
  intro args configured ttl now adapter cache q hq hmiss hrs
  have hpost := cacheGet_fst_none_lookup hmiss
  refine ⟨imageAsyncCall_miss_empty hq hmiss hrs, hpost, ?_, ?_⟩
  · intro hnone
    rw [cacheGet_of_lookup_none ttl now hnone]
  · intro now2
    have hmiss2 : (cacheGet
        (cacheGet cache
          (imageMakeCacheKey q (imageGetNumResults configured args.num_results))
          ttl now).2
        (imageMakeCacheKey q (imageGetNumResults configured args.num_results))
        ttl now2).1 = none := by
      rw [cacheGet_of_lookup_none ttl now2 hpost]
    have h2 := imageAsyncCall_miss_empty hq hmiss2 hrs
    rw [cacheGet_of_lookup_none ttl now2 hpost] at h2
    exact h2

/-- Witness for C3 at a concrete input: empty cache, adapter returns no
items; the call reports no images, the store stays empty, and the repeat
call behaves identically. -/
theorem empty_results_never_cached_witness :
    imageAsyncCall ⟨some "cats", none, none⟩ 3 60 0 (fun _ _ => .ok []) [] =
      .ok ⟨.empty "cats" false "No images found for this query.",
        (cacheGet ([] : Cache (List ImageResult))
          (imageMakeCacheKey "cats" (imageGetNumResults 3 none)) 60 0).2,
        true⟩ ∧
    cacheLookup
      (cacheGet ([] : Cache (List ImageResult))
        (imageMakeCacheKey "cats" (imageGetNumResults 3 none)) 60 0).2
      (imageMakeCacheKey "cats" (imageGetNumResults 3 none)) = none ∧
    (cacheLookup ([] : Cache (List ImageResult))
      (imageMakeCacheKey "cats" (imageGetNumResults 3 none)) = none →
      (cacheGet ([] : Cache (List ImageResult))
        (imageMakeCacheKey "cats" (imageGetNumResults 3 none)) 60 0).2 = []) ∧
    (∀ now2 : Int,
      imageAsyncCall ⟨some "cats", none, none⟩ 3 60 now2 (fun _ _ => .ok [])
        (cacheGet ([] : Cache (List ImageResult))
          (imageMakeCacheKey "cats" (imageGetNumResults 3 none)) 60 0).2 =
        .ok ⟨.empty "cats" false "No images found for this query.",
          (cacheGet ([] : Cache (List ImageResult))
            (imageMakeCacheKey "cats" (imageGetNumResults 3 none)) 60 0).2,
          true⟩) :=
  empty_results_never_cached ⟨some "cats", none, none⟩ 3 60 0
    (fun _ _ => .ok []) [] "cats" rfl rfl rfl

/-! ## Claim C10: num_results reflects the returned payload -/

/-- C10: every formatted success response of the image, web and video
tools has `num_results` equal to the length of its `results` list, which
is the length of the formatted payload (adapter output on a miss, cached
payload on a hit) — not the requested count; on a miss the full adapter
list appears in the response even if it is longer than the requested
count. -/
theorem num_results_matches_payload :
    (∀ (rs : List ImageResult) (q : String) (ad : Bool),
      (imageFormatResponse rs q ad).num_results =
        (imageFormatResponse rs q ad).results.length ∧
      (imageFormatResponse rs q ad).num_results = rs.length) ∧
    (∀ (src : String) (rs : List WebResult) (q : String),
      (webFormatResponse src rs q).num_results =
        (webFormatResponse src rs q).results.length ∧
      (webFormatResponse src rs q).num_results = rs.length) ∧
    (∀ (rs : List VideoResult) (q : String) (ap : Bool),
      (videoFormatResponse rs q ap).num_results =
        (videoFormatResponse rs q ap).results.length ∧
      (videoFormatResponse rs q ap).num_results = rs.length) ∧
    (∀ (args : ImageToolArgs) (configured ttl now : Int)
      (adapter : String → Int → Except String (List ImageResult))
      (cache : Cache (List ImageResult)) (r : ImageCallResult)
      (resp : ImageFormatted),
      imageAsyncCall args configured ttl now adapter cache = .ok r →
      r.outcome = .formatted resp →
      resp.num_results = resp.results.length) ∧
    (∀ (source : String) (args : WebToolArgs) (configured ttl now : Int)
      (adapter : String → Int → Except String (List WebResult))
      (cache : Cache (List WebResult)) (r : WebCallResult)
      (resp : WebFormatted),
      webAsyncCall source args configured ttl now adapter cache = .ok r →
      r.outcome = .formatted resp →
      resp.num_results = resp.results.length) ∧
    (∀ (args : VideoToolArgs) (configured ttl now : Int)
      (adapter : String → Int → Except String (List VideoResult))
      (cache : Cache (List VideoResult)) (r : VideoCallResult)
      (resp : VideoFormatted),
      videoAsyncCall args configured ttl now adapter cache = .ok r →
      r.outcome = .formatted resp →
      resp.num_results = resp.results.length) ∧
    (∀ (args : ImageToolArgs) (configured ttl now : Int)
      (adapter : String → Int → Except String (List ImageResult))
      (cache : Cache (List ImageResult)) (q : String)
      (rs : List ImageResult),
      args.query = some q →
      (cacheGet cache
        (imageMakeCacheKey q (imageGetNumResults configured args.num_results))
        ttl now).1 = none →
      adapter q (imageGetNumResults configured args.num_results) = .ok rs →
      rs ≠ [] →
      ∃ r, imageAsyncCall args configured ttl now adapter cache = .ok r ∧
        r.outcome = .formatted
          (imageFormatResponse rs q (args.auto_display.getD false)) ∧
        (imageFormatResponse rs q (args.auto_display.getD false)).num_results
          = rs.length) := by
  refine ⟨?_, ?_, ?_, ?_, ?_, ?_, ?_⟩
  · intro rs q ad
    exact ⟨by simp [imageFormatResponse], by simp [imageFormatResponse]⟩
  · intro src rs q
    exact ⟨by simp [webFormatResponse], by simp [webFormatResponse]⟩
  · intro rs q ap
    exact ⟨by simp [videoFormatResponse], by simp [videoFormatResponse]⟩
  · intro args configured ttl now adapter cache r resp h hf
    exact imageAsyncCall_formatted_eq h hf
  · intro source args configured ttl now adapter cache r resp h hf
    exact webAsyncCall_formatted_eq h hf
  · intro args configured ttl now adapter cache r resp h hf
    exact videoAsyncCall_formatted_eq h hf
  · intro args configured ttl now adapter cache q rs hq hmiss hrs hne
    exact ⟨_, imageAsyncCall_miss_success hq hmiss hrs hne, rfl,
      by simp [imageFormatResponse]⟩

/-- Witness for C10 at a concrete input: 1 result requested, the adapter
returns 2 items, and the success response carries both with
`num_results = 2`. -/
theorem num_results_matches_payload_witness :
    ∃ r, imageAsyncCall ⟨some "cats", some 1, none⟩ 3 3600 0
        (fun _ _ => .ok [sampleImageResult, sampleImageResult2]) [] = .ok r ∧
      r.outcome = .formatted (imageFormatResponse
        [sampleImageResult, sampleImageResult2] "cats" false) ∧
      (imageFormatResponse [sampleImageResult, sampleImageResult2] "cats"
        false).num_results = 2 :=
  num_results_matches_payload.2.2.2.2.2.2 ⟨some "cats", some 1, none⟩ 3 3600 0
    (fun _ _ => .ok [sampleImageResult, sampleImageResult2]) [] "cats"
    [sampleImageResult, sampleImageResult2] rfl rfl rfl (by simp)

/-! ## Claim C7: handling of malformed upstream image entries -/

theorem searxngCollectImages_eq (items : List SearxImageItem) (need : Int) :
    searxngCollectImages items need =
      ((items.filter searxngUsable).take need.toNat).map searxngMkResult := by
  induction items generalizing need with
  | nil => simp [searxngCollectImages]
  | cons item rest ih =>
    by_cases hneed : need ≤ 0
    · have h0 : need.toNat = 0 := by omega
      simp [searxngCollectImages, hneed, h0]
    · by_cases hu : searxngUsable item = true
      · have hcond : (decide (item.img_src.getD "" = "") ||
            !(pyStartsWith (item.img_src.getD "") "http")) = false := by
          simpa [searxngUsable] using hu
        have hn1 : need.toNat = (need - 1).toNat + 1 := by omega
        simp only [searxngCollectImages, if_neg hneed, hcond,
          Bool.false_eq_true, if_false]
        rw [List.filter_cons_of_pos hu, hn1, List.take_succ_cons,
          List.map_cons, ih]
      · have hcond : (decide (item.img_src.getD "" = "") ||
            !(pyStartsWith (item.img_src.getD "") "http")) = true := by
          cases hcb : (decide (item.img_src.getD "" = "") ||
              !(pyStartsWith (item.img_src.getD "") "http")) with
          | true => rfl
          | false => exact absurd (by simp [searxngUsable, hcb]) hu
        simp only [searxngCollectImages, if_neg hneed, hcond, if_true]
        rw [List.filter_cons_of_neg (by simp [searxngUsable, hcond])]
        exact ih need

/-- C7 counterexample: the Brave image adapter maps an upstream item that
has no direct image URL to a result dict with an empty `image_url` instead
of dropping it, so a malformed entry does appear in the returned list. -/
theorem brave_keeps_malformed_entry :
    braveCollectImages [malformedBraveItem] =
      [⟨"", "cat", "", "https://page.example", "example", none, none⟩] ∧
    pyStartsWith "" "http" = false :=
  ⟨rfl, rfl⟩

/-- C7 (amended): the SearXNG image adapter silently drops malformed
upstream entries — it returns exactly the first `need` upstream items
whose `img_src` is a non-empty `http` URL, so every returned entry has an
`http` image URL and a malformed entry never appears and never fails the
call; the Brave image adapter instead keeps every upstream entry (one
output per input, missing fields defaulted to empty strings), also without
failing the call. -/
theorem image_adapter_malformed_entries :
    (∀ (items : List SearxImageItem) (need : Int),
      searxngCollectImages items need =
        ((items.filter searxngUsable).take need.toNat).map searxngMkResult) ∧
    (∀ (items : List SearxImageItem) (need : Int) (r : ImageResult),
      r ∈ searxngCollectImages items need →
      pyStartsWith r.image_url "http" = true) ∧
    (∀ items : List BraveImageItem,
      (braveCollectImages items).length = items.length) := by
  refine ⟨searxngCollectImages_eq, ?_, ?_⟩
  · intro items need r hr
    rw [searxngCollectImages_eq] at hr
    rw [List.mem_map] at hr
    obtain ⟨i, hi, rfl⟩ := hr
    have hfilter : i ∈ items.filter searxngUsable := List.mem_of_mem_take hi
    have husable : searxngUsable i = true := List.of_mem_filter hfilter
    simp only [searxngUsable, Bool.not_eq_true', Bool.or_eq_false_iff,
      Bool.not_eq_false, decide_eq_false_iff_not] at husable
    simpa [searxngMkResult] using husable.2
  · intro items
    simp [braveCollectImages]

/-- Witness for C7 at a concrete input: a well-formed SearXNG item is
returned with its `http` image URL. -/
theorem image_adapter_malformed_entries_witness :
    pyStartsWith (searxngMkResult sampleSearxItem).image_url "http" = true :=
  image_adapter_malformed_entries.2.1 [sampleSearxItem] 1 _
    (by rw [show searxngCollectImages [sampleSearxItem] 1 =
        [searxngMkResult sampleSearxItem] by decide]
        exact List.mem_singleton_self _)

/-! ## Claim C8: weekday-name target date resolution -/

/-- C8: for every weekday-name range, `_resolve_target_date` returns the
next future date with that weekday — strictly after today, at most seven
days ahead, falling on the requested weekday — and resolves to exactly
seven days ahead (never today) when the requested weekday equals
today's. -/
theorem weekday_resolution_next_occurrence :
    ∀ (name : String) (today : Nat), name ∈ DAY_NAMES →
      ∃ d, resolveTargetDate name today = some d ∧
        today < d ∧ d ≤ today + 7 ∧
        dateWeekday d = DAY_NAMES.indexOf name ∧
        (dateWeekday today = DAY_NAMES.indexOf name → d = today + 7) := by
  intro name today h
  have h1 : name ≠ "week" := by
    rintro rfl
    revert h
    decide
  have h2 : name ≠ "today" := by
    rintro rfl
    revert h
    decide
  have h3 : name ≠ "tomorrow" := by
    rintro rfl
    revert h
    decide
  have hidx : DAY_NAMES.indexOf name < 7 := by
    have hlen := List.indexOf_lt_length.mpr h
    simpa [DAY_NAMES] using hlen
  unfold resolveTargetDate
  rw [if_neg h1, if_neg h2, if_neg h3, if_pos h]
  simp only [dateWeekday] at *
  set idx := DAY_NAMES.indexOf name with hidxdef
  set w : Int := ((idx : Int) - ((today + 6) % 7 : Nat)) % 7 with hw
  have hw0 : 0 ≤ w := Int.emod_nonneg _ (by norm_num)
  have hw7 : w < 7 := Int.emod_lt_of_pos _ (by norm_num)
  set da : Int := if w = 0 then 7 else w with hda
  have hcases : (w = 0 ∧ da = 7) ∨ (w ≠ 0 ∧ da = w) := by
    rw [hda]
    by_cases hz : w = 0
    · exact Or.inl ⟨hz, by simp [hz]⟩
    · exact Or.inr ⟨hz, by simp [hz]⟩
  have htn : (da.toNat : Int) = da := by
    rcases hcases with ⟨_, h7⟩ | ⟨_, hww⟩
    · rw [h7]
      rfl
    · rw [hww]
      exact Int.toNat_of_nonneg hw0
  refine ⟨today + da.toNat, rfl, ?_, ?_, ?_, ?_⟩
  · rcases hcases with ⟨_, h7⟩ | ⟨hz, hww⟩ <;> omega
  · rcases hcases with ⟨_, h7⟩ | ⟨hz, hww⟩ <;> omega
  · rcases hcases with ⟨hz, h7⟩ | ⟨hz, hww⟩ <;> omega
  · intro heq
    rcases hcases with ⟨hz, h7⟩ | ⟨hz, hww⟩ <;> omega

/-- Witness for C8 at a concrete input: "monday" requested on a Monday
(ordinal 8) resolves to the Monday seven days later (ordinal 15). -/
theorem weekday_resolution_next_occurrence_witness :
    ("monday" ∈ DAY_NAMES) ∧
    ∃ d, resolveTargetDate "monday" 8 = some d ∧
      8 < d ∧ d ≤ 8 + 7 ∧
      dateWeekday d = DAY_NAMES.indexOf "monday" ∧
      (dateWeekday 8 = DAY_NAMES.indexOf "monday" → d = 8 + 7) :=
  ⟨by decide, weekday_resolution_next_occurrence "monday" 8 (by decide)⟩

/-! ## Claim C9: financial quote source selection -/

theorem getCryptoBase_strip_usdt (core : String) (h : core ≠ "") :
    getCryptoBase (core ++ "USDT") = pyUpper core := by
  have hne : core.data ≠ [] := by
    intro hc
    apply h
    cases core with
    | mk l =>
      have hl : l = [] := hc
      subst hl
      rfl
  have hupper : pyUpperL ((core ++ "USDT").data) =
      pyUpperL core.data ++ "USDT".data := by
    rw [String.data_append core "USDT"]
    unfold pyUpperL
    rw [List.map_append]
    congr 1
  have hsuffix : "USDT".data.isSuffixOf (pyUpperL core.data ++ "USDT".data)
      = true := by
    rw [List.isSuffixOf_iff_suffix]
    exact List.suffix_append _ _
  have hlen4 : ("USDT".data).length = 4 := by decide
  have hpos : 0 < (pyUpperL core.data).length := by
    simp only [pyUpperL, List.length_map]
    exact List.length_pos.mpr hne
  have hlen : (pyUpperL core.data ++ "USDT".data).length > 4 := by
    rw [List.length_append, hlen4]
    omega
  unfold getCryptoBase
  rw [hupper, if_pos ⟨hsuffix, hlen⟩]
  have hsub : (pyUpperL core.data ++ "USDT".data).length - 4 =
      (pyUpperL core.data).length := by
    rw [List.length_append, hlen4]
    omega
  rw [hsub, List.take_left (pyUpperL core.data) "USDT".data]
  rfl

/-- C9: the financial tool strips a trailing quote-currency suffix to get
the crypto base ("BTCUSDT" resolves to "BTC", and generally
`core ++ "USDT"` resolves to the uppercased core); when the base is a
known crypto ticker the CoinGecko source is consulted before the Finnhub
equity source; and when the equity source answers with a zero or absent
price the CoinGecko source is retried once more, success returning its
quote and failure being declared only after that retry. -/
theorem finnhub_crypto_flow :
    (getCryptoBase "BTCUSDT" = "BTC") ∧
    (∀ core : String, core ≠ "" → getCryptoBase (core ++ "USDT") = pyUpper core) ∧
    (∀ (apiKey : String) (c1 c2 : Option CGQuote) (st : Nat) (c : Option Int)
      (sym : String),
      apiKey ≠ "" →
      (CRYPTO_COINGECKO_IDS.lookup (getCryptoBase sym)).isSome = true →
      (asyncGetStockQuote apiKey c1 c2 st c sym).2.head? =
        some (.cryptoCall (getCryptoBase sym))) ∧
    (∀ (apiKey : String) (c1 c2 : Option CGQuote) (st : Nat) (c : Option Int)
      (sym : String),
      st = 200 → (c = none ∨ c = some 0) →
      FinAction.equityCall sym ∈ (asyncGetStockQuote apiKey c1 c2 st c sym).2 →
      (asyncGetStockQuote apiKey c1 c2 st c sym).2.getLast? =
        some (.cryptoCall (getCryptoBase sym)) ∧
      (finnhubTryCrypto (getCryptoBase sym) c2 = none →
        (asyncGetStockQuote apiKey c1 c2 st c sym).1 =
          .error ("No quote data found for symbol " ++ sym ++
            ". Check that the ticker is valid.")) ∧
      (∀ qq : CGQuote, finnhubTryCrypto (getCryptoBase sym) c2 = some qq →
        (asyncGetStockQuote apiKey c1 c2 st c sym).1 = .ok (.crypto qq))) := by
  refine ⟨by decide, getCryptoBase_strip_usdt, ?_, ?_⟩
  · intro apiKey c1 c2 st c sym hk hb
    cases hq1 : finnhubTryCrypto (getCryptoBase sym) c1 with
    | some q => simp [asyncGetStockQuote, hk, hb, hq1]
    | none => simp [asyncGetStockQuote, hk, hb, hq1]
  · intro apiKey c1 c2 st c sym hst hc hmem
    subst hst
    by_cases hk : apiKey = ""
    · simp [asyncGetStockQuote, hk] at hmem
    · by_cases hb : (CRYPTO_COINGECKO_IDS.lookup (getCryptoBase sym)).isSome
        = true
      · cases hq1 : finnhubTryCrypto (getCryptoBase sym) c1 with
        | some q => simp [asyncGetStockQuote, hk, hb, hq1] at hmem
        | none =>
          cases hq2 : finnhubTryCrypto (getCryptoBase sym) c2 with
          | some q =>
            have heval : asyncGetStockQuote apiKey c1 c2 200 c sym =
                (.ok (.crypto q),
                  [.cryptoCall (getCryptoBase sym), .equityCall sym,
                    .cryptoCall (getCryptoBase sym)]) := by
              rcases hc with rfl | rfl <;>
                simp [asyncGetStockQuote, finnhubEquityPhase,
                  finnhubZeroPriceRetry, hk, hb, hq1, hq2]
            rw [heval]
            refine ⟨rfl, ?_, ?_⟩
            · intro hcn
              simp at hcn
            · intro qq hqq
              injection hqq with hqq
              subst hqq
              rfl
          | none =>
            have heval : asyncGetStockQuote apiKey c1 c2 200 c sym =
                (.error ("No quote data found for symbol " ++ sym ++
                  ". Check that the ticker is valid."),
                  [.cryptoCall (getCryptoBase sym), .equityCall sym,
                    .cryptoCall (getCryptoBase sym)]) := by
              rcases hc with rfl | rfl <;>
                simp [asyncGetStockQuote, finnhubEquityPhase,
                  finnhubZeroPriceRetry, hk, hb, hq1, hq2]
            rw [heval]
            refine ⟨rfl, fun _ => rfl, ?_⟩
            intro qq hqq
            simp at hqq
      · have hq2 : finnhubTryCrypto (getCryptoBase sym) c2 = none := by
          simp [finnhubTryCrypto, Option.not_isSome_iff_eq_none.mp hb]
        have heval : asyncGetStockQuote apiKey c1 c2 200 c sym =
            (.error ("No quote data found for symbol " ++ sym ++
              ". Check that the ticker is valid."),
              [.equityCall sym, .cryptoCall (getCryptoBase sym)]) := by
          rcases hc with rfl | rfl <;>
            simp [asyncGetStockQuote, finnhubEquityPhase,
              finnhubZeroPriceRetry, hk, hb, hq2]
        rw [heval]
        refine ⟨rfl, fun _ => rfl, ?_⟩
        intro qq hqq
        rw [hq2] at hqq
        cases hqq

/-- Witness for C9 at concrete inputs: "ETH" ++ "USDT" strips to "ETH",
and for symbol "BTCUSDT" with a failing CoinGecko first attempt, a
200-status equity response with price 0, and a successful CoinGecko
retry, the trace ends with the crypto retry and the call returns its
quote. -/
theorem finnhub_crypto_flow_witness :
    getCryptoBase ("ETH" ++ "USDT") = pyUpper "ETH" ∧
    ((asyncGetStockQuote "key" none (some ⟨"btc-quote"⟩) 200 (some 0)
        "BTCUSDT").2.getLast? =
      some (.cryptoCall (getCryptoBase "BTCUSDT")) ∧
      (finnhubTryCrypto (getCryptoBase "BTCUSDT") (some ⟨"btc-quote"⟩) = none →
        (asyncGetStockQuote "key" none (some ⟨"btc-quote"⟩) 200 (some 0)
          "BTCUSDT").1 =
        .error ("No quote data found for symbol " ++ "BTCUSDT" ++
          ". Check that the ticker is valid.")) ∧
      (∀ qq : CGQuote,
        finnhubTryCrypto (getCryptoBase "BTCUSDT") (some ⟨"btc-quote"⟩)
          = some qq →
        (asyncGetStockQuote "key" none (some ⟨"btc-quote"⟩) 200 (some 0)
          "BTCUSDT").1 = .ok (.crypto qq))) :=
  ⟨finnhub_crypto_flow.2.1 "ETH" (by decide),
   finnhub_crypto_flow.2.2.2 "key" none (some ⟨"btc-quote"⟩) 200 (some 0)
     "BTCUSDT" rfl (Or.inr rfl) (by decide)⟩

end VoiceSatellite
